import Mathlib

/-!
# Verification of the pixivdaily pipeline (src/lib.rs)

A shallow embedding of the core of `src/lib.rs`:

* the adaptive media-fitting algorithm `resize_image`,
* the delivery retry loop inside `send_illust`,
* the media-group construction inside `send_illust`, and
* the delivery-task launch loop inside `run`.

Modelling conventions:

* Raw bytes are `List Nat`.
* The external `image` crate (decoding, Lanczos resizing, PNG encoding) is
  modelled by an abstract `Codec` structure; theorems that need a fact about
  the real codec (for example, that the PNG encoding of an image resized to a
  zero target is small, because the library clamps the actual output to at
  least 1x1) take that fact as an explicit hypothesis.
* The `f32` arithmetic of `resize_image` is idealised as exact arithmetic:
  `(x as f32 * r) as u32` for a nonnegative exact ratio `r = a / b` becomes
  the natural-number floor division `x * a / b`, and
  `sqrt(MAX_IMAGE_SIZE / len)` scaled by a dimension becomes `Nat.sqrt` of
  the corresponding exact quotient.
* Integer overflow follows release-build Rust: the `u32` addition
  `target_width + target_height` of the dimension correction wraps modulo
  `2^32` (`wrapU32`; debug builds would panic there instead), and
  float-to-`u32` casts saturate (`toU32`).  The remaining arithmetic of the
  algorithm (the guess, which scales a `u32` down, and the 0.8 shrink)
  cannot leave the `u32` range.
* The unbounded `loop` of `resize_image` is run on the fuel
  `width + height + 1`, which is enough for every iteration that still
  shrinks the dimensions; running out of fuel (possible only once both
  target dimensions are stuck at 0 with an oversized encoding) is reported
  as divergence.
-/

/-- `MAX_IMAGE_SIZE` from src/lib.rs: `10 * 1024_usize.pow(2)` (10 MiB),
the spec's SizeCeiling. -/
def MAX_IMAGE_SIZE : Nat := 10 * 1024 ^ 2

/-! ## Data model (the deserialized Pixiv API records of src/lib.rs) -/

/-- `struct IllustImages` of src/lib.rs: per-page declared dimensions,
kept as strings exactly as deserialized. -/
structure IllustImages where
  illust_image_width : String
  illust_image_height : String
deriving DecidableEq

/-- `struct Manga` of src/lib.rs: one page of a manga illustration. -/
structure Manga where
  page : Nat
  url : String
  url_small : String
deriving DecidableEq

/-- `struct IllustMeta` of src/lib.rs. -/
structure IllustMeta where
  description : String
  canonical : String
deriving DecidableEq

/-- `struct Author` of src/lib.rs. -/
structure Author where
  user_id : String
  user_name : String
  user_account : String
deriving DecidableEq

/-- `struct Illust` of src/lib.rs: a fully resolved illustration record. -/
structure Illust where
  id : String
  title : String
  width : String
  height : String
  tags : List String
  illust_images : Option (List IllustImages)
  manga_a : Option (List Manga)
  rating_count : String
  rating_view : String
  bookmark_user_total : Nat
  url : Option String
  url_s : Option String
  url_ss : Option String
  meta : IllustMeta
  author_details : Author
  is_login_only : Bool
deriving DecidableEq

/-! ## The abstract image codec

`resize_image` uses `image::load_from_memory`, `DynamicImage::resize`
(Lanczos3) and `DynamicImage::write_to(.., ImageFormat::Png)`.  These live in
the external `image` crate, so they are modelled abstractly. -/

/-- Abstract model of the external `image` crate operations used by
`resize_image`: decoding bytes, resizing, and PNG encoding. -/
structure Codec where
  Img : Type
  decode : List Nat → Option Img
  resize : Img → Nat → Nat → Img
  encodePng : Img → List Nat

/-! ## Dimension arithmetic of `resize_image` (exact idealisation of f32) -/

/-- Initial guessed target dimensions of `resize_image`:
`guessed_ratio = sqrt(MAX_IMAGE_SIZE / len)` and
`target = (original as f32 * guessed_ratio) as u32`, idealised exactly as
`⌊original * sqrt(MAX_IMAGE_SIZE / len)⌋ = Nat.sqrt (original^2 * MAX_IMAGE_SIZE / len)`. -/
def guessDims (original_width original_height len : Nat) : Nat × Nat :=
  (Nat.sqrt (original_width * original_width * MAX_IMAGE_SIZE / len),
   Nat.sqrt (original_height * original_height * MAX_IMAGE_SIZE / len))

/-- Release-build Rust `u32` addition wraps modulo `2^32`. -/
def wrapU32 (n : Nat) : Nat := n % 2 ^ 32

/-- Rust's saturating float-to-`u32` cast of a nonnegative value. -/
def toU32 (n : Nat) : Nat := min n (2 ^ 32 - 1)

/-- The combined-dimension correction of `resize_image` (src/lib.rs lines
281-291): if `target_width + target_height > 10000`, rescale both by
`10000 / (target_width + target_height)` and floor (Telegram requires
width + height <= 10000).  Both the comparison and the ratio use the `u32`
sum of the targets, which wraps modulo `2^32` in release builds, and the
casts of the rescaled values back to `u32` saturate. -/
def capDims (p : Nat × Nat) : Nat × Nat :=
  if 10000 < wrapU32 (p.1 + p.2) then
    (toU32 (p.1 * 10000 / wrapU32 (p.1 + p.2)),
     toU32 (p.2 * 10000 / wrapU32 (p.1 + p.2)))
  else p

/-- The target dimensions with which `resize_image` enters its loop. -/
def initialDims (original_width original_height len : Nat) : Nat × Nat :=
  capDims (guessDims original_width original_height len)

/-- The per-round shrink of `resize_image`:
`target = (target as f32 * 0.8) as u32`, i.e. `⌊0.8 * target⌋ = target * 4 / 5`. -/
def shrinkDims (p : Nat × Nat) : Nat × Nat :=
  (p.1 * 4 / 5, p.2 * 4 / 5)

/-- Both dimensions strictly decrease from `p` to `q`. -/
def strictShrink (p q : Nat × Nat) : Prop :=
  q.1 < p.1 ∧ q.2 < p.2

/-- `q` is exactly the unclamped 20% shrink of `p`. -/
def isShrinkStep (p q : Nat × Nat) : Prop :=
  q = shrinkDims p

/-- The `loop` of `resize_image`, run on explicit fuel.  Each round resizes
the current image to the target dimensions, PNG-encodes it, returns the bytes
if they are strictly below `MAX_IMAGE_SIZE`, and otherwise shrinks both
targets by 20% and repeats.  The first component records the target
dimensions used by each resize call (the loop's iteration trace); the second
is the produced bytes, or `none` if the fuel ran out. -/
def fitLoop (C : Codec) : Nat → C.Img → Nat → Nat → List (Nat × Nat) × Option (List Nat)
  | 0, _, _, _ => ([], none)
  | fuel + 1, img, target_width, target_height =>
    let img2 := C.resize img target_width target_height
    let png := C.encodePng img2
    if png.length < MAX_IMAGE_SIZE then
      ([(target_width, target_height)], some png)
    else
      let d := shrinkDims (target_width, target_height)
      let r := fitLoop C fuel img2 d.1 d.2
      ((target_width, target_height) :: r.1, r.2)

/-- Result of `resize_image`: produced bytes, a decode failure
(`image::ImageError`), or divergence of the unbounded loop. -/
inductive FitResult where
  | ok (bytes : List Nat)
  | decodeFailed
  | diverge
deriving DecidableEq

/-- `resize_image` of src/lib.rs (the spec's `fit`): return the input
unchanged if it is at most `MAX_IMAGE_SIZE`; otherwise decode it and run the
shrink-and-measure loop from the capped guessed dimensions. -/
def resize_image (C : Codec) (image_bytes : List Nat)
    (original_width original_height : Nat) : FitResult :=
  if image_bytes.length ≤ MAX_IMAGE_SIZE then .ok image_bytes
  else
    match C.decode image_bytes with
    | none => .decodeFailed
    | some img =>
      let d := initialDims original_width original_height image_bytes.length
      match (fitLoop C (d.1 + d.2 + 1) img d.1 d.2).2 with
      | some png => .ok png
      | none => .diverge

/-- A trivial concrete codec (images carry no data, encodings are empty),
used to instantiate theorems at concrete inputs. -/
def unitCodec : Codec where
  Img := Unit
  decode := fun _ => some ()
  resize := fun _ _ _ => ()
  encodePng := fun _ => []

/-- An always-oversized encoding, for exercising the shrink loop. -/
def bigBytes : List Nat := List.replicate MAX_IMAGE_SIZE 0

/-- A codec whose encodings are never below the ceiling, forcing the shrink
loop to keep iterating. -/
def bigCodec : Codec where
  Img := Unit
  decode := fun _ => some ()
  resize := fun _ _ _ => ()
  encodePng := fun _ => bigBytes

theorem bigBytes_length : bigBytes.length = MAX_IMAGE_SIZE := by
  simp [bigBytes]

/-! ## Lemmas about the fitting arithmetic -/

theorem capDims_sum_le_of_no_wrap (p : Nat × Nat) (h : p.1 + p.2 < 2 ^ 32) :
    (capDims p).1 + (capDims p).2 ≤ 10000 := by
  unfold capDims
  have hw : wrapU32 (p.1 + p.2) = p.1 + p.2 := Nat.mod_eq_of_lt h
  rw [hw]
  split
  · rename_i hgt
    have hS : 0 < p.1 + p.2 := by omega
    have hdiv : p.1 * 10000 / (p.1 + p.2) + p.2 * 10000 / (p.1 + p.2) ≤ 10000 :=
      calc p.1 * 10000 / (p.1 + p.2) + p.2 * 10000 / (p.1 + p.2)
          ≤ (p.1 * 10000 + p.2 * 10000) / (p.1 + p.2) := Nat.add_div_le_add_div _ _ _
        _ = (p.1 + p.2) * 10000 / (p.1 + p.2) := by ring_nf
        _ = 10000 := Nat.mul_div_cancel_left _ hS
    simp only [toU32]
    omega
  · rename_i hle
    omega

theorem fitLoop_trace_le (C : Codec) :
    ∀ (fuel : Nat) (img : C.Img) (tw th : Nat) (p : Nat × Nat),
      p ∈ (fitLoop C fuel img tw th).1 → p.1 ≤ tw ∧ p.2 ≤ th := by
  intro fuel
  induction fuel with
  | zero => intro img tw th p hp; simp [fitLoop] at hp
  | succ n ih =>
    intro img tw th p hp
    simp only [fitLoop] at hp
    split at hp
    · simp at hp
      simp [hp]
    · simp only [List.mem_cons] at hp
      rcases hp with hp | hp
      · simp [hp]
      · have := ih _ _ _ _ hp
        simp only [shrinkDims] at this
        omega

theorem fitLoop_head (C : Codec) (fuel : Nat) (img : C.Img) (tw th : Nat) :
    ∀ q ∈ (fitLoop C fuel img tw th).1.head?, q = (tw, th) := by
  cases fuel with
  | zero => simp [fitLoop]
  | succ n =>
    simp only [fitLoop]
    split <;> simp

theorem fitLoop_ok_bytes (C : Codec) :
    ∀ (fuel : Nat) (img : C.Img) (tw th : Nat) (png : List Nat),
      (fitLoop C fuel img tw th).2 = some png →
      png.length < MAX_IMAGE_SIZE ∧ ∃ i, png = C.encodePng i := by
  intro fuel
  induction fuel with
  | zero => intro img tw th png h; simp [fitLoop] at h
  | succ n ih =>
    intro img tw th png h
    simp only [fitLoop] at h
    split at h
    · rename_i hlt
      simp only [Option.some.injEq] at h
      subst h
      exact ⟨hlt, _, rfl⟩
    · exact ih _ _ _ _ h

theorem fitLoop_terminates (C : Codec)
    (hz : ∀ (img : C.Img) (tw th : Nat), tw = 0 ∨ th = 0 →
      (C.encodePng (C.resize img tw th)).length < MAX_IMAGE_SIZE) :
    ∀ (fuel : Nat) (img : C.Img) (tw th : Nat), tw + th < fuel →
      ∃ png, (fitLoop C fuel img tw th).2 = some png := by
  intro fuel
  induction fuel with
  | zero => intro img tw th h; omega
  | succ n ih =>
    intro img tw th hlt
    simp only [fitLoop]
    split
    · exact ⟨_, rfl⟩
    · rename_i hbig
      have htw : 0 < tw ∧ 0 < th := by
        by_contra hc
        push_neg at hc
        have : tw = 0 ∨ th = 0 := by omega
        exact hbig (hz img tw th this)
      exact ih _ _ _ (by simp only [shrinkDims]; omega)

/-! ## Claims about the MediaFitter -/

/-- C2 (fit-ceiling property): whenever the raw bytes are decodable and
`resize_image` produces output bytes, those bytes are at most
`MAX_IMAGE_SIZE` long and are themselves decodable (the codec hypothesis
`henc` states the real-world fact that a PNG encoding produced by the codec
decodes again). -/
theorem resize_image_ceiling_c2 (C : Codec) (image_bytes : List Nat)
    (original_width original_height : Nat)
    (hdec : (C.decode image_bytes).isSome = true)
    (henc : ∀ i : C.Img, (C.decode (C.encodePng i)).isSome = true)
    (hz : ∀ (img : C.Img) (tw th : Nat), tw = 0 ∨ th = 0 →
      (C.encodePng (C.resize img tw th)).length < MAX_IMAGE_SIZE) :
    ∃ out, resize_image C image_bytes original_width original_height = .ok out ∧
      out.length ≤ MAX_IMAGE_SIZE ∧ (C.decode out).isSome = true := by
  simp only [resize_image]
  split
  · rename_i hsmall
    exact ⟨image_bytes, rfl, hsmall, hdec⟩
  · cases hd : C.decode image_bytes with
    | none => rw [hd] at hdec; cases hdec
    | some img =>
      obtain ⟨png, hfit⟩ := fitLoop_terminates C hz
        ((initialDims original_width original_height image_bytes.length).1 +
          (initialDims original_width original_height image_bytes.length).2 + 1)
        img (initialDims original_width original_height image_bytes.length).1
        (initialDims original_width original_height image_bytes.length).2
        (by omega)
      obtain ⟨hlt, i, hi⟩ := fitLoop_ok_bytes C _ img _ _ _ hfit
      refine ⟨png, ?_, Nat.le_of_lt hlt, by rw [hi]; exact henc i⟩
      simp only [hfit]

/-- Witness for C2 at a concrete input (the trivial codec, empty bytes). -/
theorem resize_image_ceiling_c2_witness :
    ([] : List Nat).length ≤ MAX_IMAGE_SIZE ∧ (unitCodec.decode []).isSome = true := by
  obtain ⟨out, h1, h2, h3⟩ := resize_image_ceiling_c2 unitCodec [] 1 1
    (by decide) (fun i => rfl)
    (fun img tw th h => show ([] : List Nat).length < MAX_IMAGE_SIZE by decide)
  have he : FitResult.ok out = FitResult.ok ([] : List Nat) :=
    h1.symm.trans (by decide)
  injection he with h4
  subst h4
  exact ⟨h2, h3⟩

/-- C3 (no-op property): if the input is already at most `MAX_IMAGE_SIZE`
bytes, `resize_image` returns it unchanged — for every codec, so no decoding
or re-encoding is involved. -/
theorem resize_image_noop_c3 (C : Codec) (image_bytes : List Nat)
    (original_width original_height : Nat)
    (h : image_bytes.length ≤ MAX_IMAGE_SIZE) :
    resize_image C image_bytes original_width original_height = .ok image_bytes := by
  simp [resize_image, h]

/-- Witness for C3 at a concrete input. -/
theorem resize_image_noop_c3_witness :
    resize_image unitCodec [7] 2 2 = FitResult.ok [7] :=
  resize_image_noop_c3 unitCodec [7] 2 2 (by decide)

/-- C4 counterexample: with declared dimensions 4294967295 x 4294967295
(`u32::MAX`, parseable from the API's width/height strings) and a
just-oversized image of `MAX_IMAGE_SIZE + 1` bytes, the guessed dimensions
are (4294967090, 4294967090); their `u32` sum wraps modulo `2^32`, the
correction rescales against the wrapped sum, and the first fit-loop
iteration resizes with dimensions (10000, 10000) — a sum of 20000, above
the 10000 ceiling the claim asserts at every iteration. -/
theorem guess_sqrt_wrap : Nat.sqrt (4294967295 * 4294967295 * MAX_IMAGE_SIZE /
    (MAX_IMAGE_SIZE + 1)) = 4294967090 :=
  (Nat.eq_sqrt.mpr ⟨by decide, by decide⟩).symm

theorem initialDims_wrap_eq :
    initialDims 4294967295 4294967295 (MAX_IMAGE_SIZE + 1) =
      capDims (4294967090, 4294967090) := by
  unfold initialDims guessDims
  rw [guess_sqrt_wrap]

theorem capDims_wrap_gt :
    10000 < (capDims (4294967090, 4294967090)).1 +
      (capDims (4294967090, 4294967090)).2 := by decide

theorem resize_dims_ceiling_c4_counterexample :
    ((initialDims 4294967295 4294967295 (MAX_IMAGE_SIZE + 1)).1,
      (initialDims 4294967295 4294967295 (MAX_IMAGE_SIZE + 1)).2) ∈
      (fitLoop unitCodec 1 ()
        (initialDims 4294967295 4294967295 (MAX_IMAGE_SIZE + 1)).1
        (initialDims 4294967295 4294967295 (MAX_IMAGE_SIZE + 1)).2).1 ∧
      10000 < (initialDims 4294967295 4294967295 (MAX_IMAGE_SIZE + 1)).1 +
        (initialDims 4294967295 4294967295 (MAX_IMAGE_SIZE + 1)).2 := by
  constructor
  · have h0 : (0 : Nat) < MAX_IMAGE_SIZE := by decide
    simp [fitLoop, unitCodec, h0]
  · rw [initialDims_wrap_eq]
    exact capDims_wrap_gt

/-- C4 (amended): the correction establishes the bound only in the absence
of `u32` overflow — whenever the guessed dimensions sum to less than `2^32`,
the corrected initial dimensions satisfy `width + height ≤ 10000` and every
dimension pair in the fit loop's iteration trace keeps the bound (each
shrink is componentwise non-increasing); when the guessed `u32` sum wraps,
the comparison under-corrects and the bound can fail. -/
theorem resize_dims_ceiling_c4_amended (C : Codec) (fuel : Nat) (img : C.Img)
    (original_width original_height len : Nat) (p : Nat × Nat)
    (hnw : (guessDims original_width original_height len).1 +
      (guessDims original_width original_height len).2 < 2 ^ 32)
    (hp : p ∈ (fitLoop C fuel img (initialDims original_width original_height len).1
      (initialDims original_width original_height len).2).1) :
    p.1 + p.2 ≤ 10000 ∧
      ∀ g : Nat × Nat, g.1 + g.2 < 2 ^ 32 →
        (capDims g).1 + (capDims g).2 ≤ 10000 := by
  have h1 := fitLoop_trace_le C fuel img _ _ p hp
  have h2 := capDims_sum_le_of_no_wrap
    (guessDims original_width original_height len) hnw
  rw [show capDims (guessDims original_width original_height len) =
    initialDims original_width original_height len from rfl] at h2
  exact ⟨by omega, fun g hg => capDims_sum_le_of_no_wrap g hg⟩

/-- Witness for the amended C4: a one-round loop at a concrete oversized
input whose guessed dimensions do not overflow. -/
theorem resize_dims_ceiling_c4_amended_witness :
    (initialDims 1 2 (MAX_IMAGE_SIZE + 1)).1 +
      (initialDims 1 2 (MAX_IMAGE_SIZE + 1)).2 ≤ 10000 :=
  (resize_dims_ceiling_c4_amended unitCodec 1 () 1 2 (MAX_IMAGE_SIZE + 1)
    ((initialDims 1 2 (MAX_IMAGE_SIZE + 1)).1,
      (initialDims 1 2 (MAX_IMAGE_SIZE + 1)).2)
    (by
      have h1 := (Nat.sqrt_le_self
        (1 * 1 * MAX_IMAGE_SIZE / (MAX_IMAGE_SIZE + 1))).trans
        (Nat.le_of_eq (by decide : 1 * 1 * MAX_IMAGE_SIZE /
          (MAX_IMAGE_SIZE + 1) = 0))
      have h2 := (Nat.sqrt_le_self
        (2 * 2 * MAX_IMAGE_SIZE / (MAX_IMAGE_SIZE + 1))).trans
        (Nat.le_of_eq (by decide : 2 * 2 * MAX_IMAGE_SIZE /
          (MAX_IMAGE_SIZE + 1) = 3))
      simp only [guessDims]
      omega)
    (by
      have h0 : (0 : Nat) < MAX_IMAGE_SIZE := by decide
      simp [fitLoop, unitCodec, h0])).1

/-- C5 (monotonic shrink): along the fit loop's iteration trace both target
dimensions strictly decrease at every step that needed another iteration
(hence they are non-increasing across the whole loop).  The hypothesis `hz`
is the fact about the real codec that a resize with a zero target produces an
at-least-1x1 image whose PNG encoding is far below the 10 MiB ceiling. -/
theorem resize_monotone_shrink_c5 (C : Codec)
    (hz : ∀ (img : C.Img) (tw th : Nat), tw = 0 ∨ th = 0 →
      (C.encodePng (C.resize img tw th)).length < MAX_IMAGE_SIZE)
    (fuel : Nat) (img : C.Img) (tw th : Nat) :
    List.Chain' strictShrink (fitLoop C fuel img tw th).1 := by
  induction fuel generalizing img tw th with
  | zero => simp [fitLoop]
  | succ n ih =>
    simp only [fitLoop]
    split
    · simp
    · rename_i hbig
      rw [List.chain'_cons']
      refine ⟨fun q hq => ?_, ih _ _ _⟩
      have hq' := fitLoop_head C n (C.resize img tw th)
        (shrinkDims (tw, th)).1 (shrinkDims (tw, th)).2 q hq
      have htw : 0 < tw ∧ 0 < th := by
        by_contra hc
        push_neg at hc
        have : tw = 0 ∨ th = 0 := by omega
        exact hbig (hz img tw th this)
      subst hq'
      simp only [strictShrink, shrinkDims]
      constructor <;> omega

/-- Witness for C5 at the trivial codec and a concrete start. -/
theorem resize_monotone_shrink_c5_witness :
    List.Chain' strictShrink (fitLoop unitCodec 7 () 3 3).1 :=
  resize_monotone_shrink_c5 unitCodec
    (fun i tw th h => show ([] : List Nat).length < MAX_IMAGE_SIZE by decide) 7 () 3 3

/-- C6 counterexample: the loop's target dimensions are not clamped to a
1-pixel minimum — starting from target 1x1 with encodings that never fit,
an iteration passes the dimensions (0, 0) to the resize call. -/
theorem resize_no_clamp_c6_counterexample :
    (0, 0) ∈ (fitLoop bigCodec 3 () 1 1).1 := by
  simp [fitLoop, bigCodec, bigBytes_length, shrinkDims]

/-- C6 (amended): the fit loop never clamps its target dimensions; each
iteration's targets are exactly `shrinkDims` of the previous ones
(`⌊0.8·w⌋`, `⌊0.8·h⌋` with no 1-pixel floor), and in particular a target of
1 shrinks to 0. -/
theorem resize_no_clamp_c6_amended (C : Codec) (fuel : Nat) (img : C.Img) (tw th : Nat) :
    List.Chain' isShrinkStep (fitLoop C fuel img tw th).1 ∧
      shrinkDims (1, 1) = (0, 0) := by
  refine ⟨?_, by decide⟩
  induction fuel generalizing img tw th with
  | zero => simp [fitLoop]
  | succ n ih =>
    simp only [fitLoop]
    split
    · simp
    · rw [List.chain'_cons']
      refine ⟨fun q hq => ?_, ih _ _ _⟩
      have := fitLoop_head C n (C.resize img tw th)
        (shrinkDims (tw, th)).1 (shrinkDims (tw, th)).2 q hq
      simp [isShrinkStep, this]

/-! ## DeliveryAgent: the retry loop of `send_illust` (src/lib.rs lines 483-526) -/

/-- The transport errors of teloxide's `RequestError` as far as the retry
loop can see them: an explicit rate-limit signal carrying a retry-after
duration in seconds, or any other transport error with a message. -/
inductive RequestError where
  | retryAfter (seconds : Nat)
  | api (message : String)
deriving DecidableEq

/-- Whether an attempt outcome is an error (`if let Some(Err(_))`). -/
def isErrRes : Except RequestError Unit → Bool
  | .error _ => true
  | .ok _ => false

/-- The `for attempt in 0..10` loop of `send_illust`.  `t` gives the outcome
of the `send_media_group` call at each attempt index; `remaining` is the
number of loop indices left.  Returns the final value of the mutable
`result` variable and the number of attempts actually performed: an error is
logged and the loop continues immediately with the next attempt; a success
breaks out of the loop at once. -/
def sendLoopAux (t : Nat → Except RequestError Unit) :
    Nat → Nat → Option (Except RequestError Unit) × Nat
  | _, 0 => (none, 0)
  | attempt, remaining + 1 =>
    match t attempt with
    | .ok u => (some (.ok u), 1)
    | .error e =>
      let p := sendLoopAux t (attempt + 1) remaining
      (some (p.1.getD (.error e)), p.2 + 1)

/-- The send-with-retry protocol of `send_illust`: run the attempt loop with
bound 10 and return the error of the final recorded result, if any.  The
second component is the number of attempts performed; the third is the total
seconds the loop sleeps between attempts — the source loop contains no sleep
call at all, so it is always 0 (any request pacing happens inside the
teloxide `Throttle` adaptor, outside src/lib.rs). -/
def send_illust_retry (t : Nat → Except RequestError Unit) :
    Except RequestError Unit × Nat × Nat :=
  let p := sendLoopAux t 0 10
  (match p.1 with
   | some (.error e) => .error e
   | _ => .ok (), p.2, 0)

theorem sendLoopAux_succ (t : Nat → Except RequestError Unit)
    (attempt remaining : Nat) :
    sendLoopAux t attempt (remaining + 1) =
      match t attempt with
      | .ok u => (some (.ok u), 1)
      | .error e =>
        (some ((sendLoopAux t (attempt + 1) remaining).1.getD (.error e)),
          (sendLoopAux t (attempt + 1) remaining).2 + 1) := rfl

theorem sendLoopAux_all_err (t : Nat → Except RequestError Unit) :
    ∀ (r a : Nat), 0 < r → (∀ i, i < r → isErrRes (t (a + i)) = true) →
      sendLoopAux t a r = (some (t (a + r - 1)), r) := by
  intro r
  induction r with
  | zero => intro a h; omega
  | succ n ih =>
    intro a _ h
    have h0 : isErrRes (t a) = true := by simpa using h 0 (by omega)
    cases ht : t a with
    | ok u => rw [ht] at h0; simp [isErrRes] at h0
    | error e =>
      cases n with
      | zero =>
        rw [sendLoopAux_succ, ht]
        simp [sendLoopAux, ht]
      | succ m =>
        have ih' := ih (a + 1) (by omega) (fun i hi => by
          have := h (i + 1) (by omega)
          simpa [Nat.add_assoc, Nat.add_comm 1 i] using this)
        have harith : a + 1 + (m + 1) - 1 = a + (m + 1 + 1) - 1 := by omega
        rw [sendLoopAux_succ, ht]
        simp [ih', harith]

theorem sendLoopAux_first_ok (t : Nat → Except RequestError Unit) :
    ∀ (k a r : Nat), k < r → (∀ j, j < k → isErrRes (t (a + j)) = true) →
      t (a + k) = .ok () →
      sendLoopAux t a r = (some (.ok ()), k + 1) := by
  intro k
  induction k with
  | zero =>
    intro a r hr _ hok
    cases r with
    | zero => omega
    | succ n =>
      simp only [Nat.add_zero] at hok
      simp [sendLoopAux, hok]
  | succ k ih =>
    intro a r hr herr hok
    have h0 : isErrRes (t a) = true := by simpa using herr 0 (by omega)
    cases ht : t a with
    | ok u => rw [ht] at h0; simp [isErrRes] at h0
    | error e =>
      cases r with
      | zero => omega
      | succ n =>
        have ih' := ih (a + 1) n (by omega) (fun j hj => by
          have := herr (j + 1) (by omega)
          simpa [Nat.add_assoc, Nat.add_comm 1 j] using this) (by
          have : a + 1 + k = a + (k + 1) := by omega
          rw [this]; exact hok)
        rw [sendLoopAux_succ, ht]
        simp [ih']

/-- C7 (retry exhaustion and immediate success): if every one of the 10
attempts fails, `send_illust`'s retry loop performs exactly 10 attempts with
no sleep in between and returns the last attempt's error as the cause; if
attempt `k` is the first to succeed, the loop returns success immediately
after `k + 1` attempts. -/
theorem send_retry_c7 (t : Nat → Except RequestError Unit) (k : Nat) :
    ((∀ n, n < 10 → isErrRes (t n) = true) →
      send_illust_retry t = (t 9, 10, 0))
    ∧ (k < 10 → (∀ j, j < k → isErrRes (t j) = true) → t k = .ok () →
      send_illust_retry t = (.ok (), k + 1, 0)) := by
  constructor
  · intro h
    have h9 : isErrRes (t 9) = true := h 9 (by omega)
    have hl : sendLoopAux t 0 10 = (some (t 9), 10) := by
      have := sendLoopAux_all_err t 10 0 (by omega) (fun i hi => by
        simpa using h i hi)
      simpa using this
    cases ht : t 9 with
    | ok u => rw [ht] at h9; simp [isErrRes] at h9
    | error e =>
      rw [ht] at hl
      simp [send_illust_retry, hl]
  · intro hk herr hok
    have hl := sendLoopAux_first_ok t k 0 10 hk (fun j hj => by
      simpa using herr j hj) (by simpa using hok)
    simp [send_illust_retry, hl]

/-- A transport mock that fails every attempt with a generic error. -/
def tAllFail : Nat → Except RequestError Unit :=
  fun _ => .error (.api "Bad Request: group send failed")

/-- A transport mock that fails twice, then succeeds. -/
def tOkAt2 : Nat → Except RequestError Unit :=
  fun n => if n < 2 then .error (.api "Bad Request: group send failed") else .ok ()

/-- Witness for C7: the always-failing mock exhausts exactly 10 attempts and
returns the last error; the mock succeeding at attempt 2 stops after 3. -/
theorem send_retry_c7_witness :
    send_illust_retry tAllFail = (tAllFail 9, 10, 0) ∧
      send_illust_retry tOkAt2 = (.ok (), 3, 0) :=
  ⟨(send_retry_c7 tAllFail 0).1 (fun n _ => rfl),
   (send_retry_c7 tOkAt2 2).2 (by decide) (by decide) rfl⟩

/-- A transport mock signalling a 5-second rate limit once, then succeeding. -/
def tRateLimitedOnce : Nat → Except RequestError Unit :=
  fun n => if n = 0 then .error (.retryAfter 5) else .ok ()

/-- A transport mock signalling a 5-second rate limit on every attempt. -/
def tRateLimitedAlways : Nat → Except RequestError Unit :=
  fun _ => .error (.retryAfter 5)

/-- C8 counterexample: for a transport that signals `RetryAfter 5` once and
then succeeds, the loop sleeps 0 seconds — not the 5 the claim requires —
and the rate-limited attempt consumed one generic attempt; a transport that
always signals `RetryAfter 5` exhausts all 10 attempts exactly as a generic
error does, so rate limits are not distinguished from generic failures. -/
theorem send_rate_limit_c8_counterexample :
    send_illust_retry tRateLimitedOnce = (.ok (), 2, 0) ∧
      (send_illust_retry tRateLimitedOnce).2.2 ≠ 5 ∧
      send_illust_retry tRateLimitedAlways = (.error (.retryAfter 5), 10, 0) :=
  ⟨rfl, by decide, rfl⟩

theorem sendLoopAux_count_congr (t t' : Nat → Except RequestError Unit)
    (hsame : ∀ n, isErrRes (t n) = isErrRes (t' n)) :
    ∀ (r a : Nat), (sendLoopAux t a r).2 = (sendLoopAux t' a r).2 := by
  intro r
  induction r with
  | zero => intro a; rfl
  | succ n ih =>
    intro a
    have hs := hsame a
    cases ht : t a with
    | ok u =>
      cases ht' : t' a with
      | ok u' => simp [sendLoopAux_succ, ht, ht']
      | error e' => rw [ht, ht'] at hs; simp [isErrRes] at hs
    | error e =>
      cases ht' : t' a with
      | ok u' => rw [ht, ht'] at hs; simp [isErrRes] at hs
      | error e' =>
        simp only [sendLoopAux_succ, ht, ht']
        rw [ih (a + 1)]

/-- C8 (amended): the retry loop of `send_illust` does not special-case the
rate-limit error.  It never sleeps (the loop has no sleep; pacing is
delegated to the throttle adaptor outside src/lib.rs), and the number of
attempts it performs depends only on which attempts fail, not on whether a
failure is `RetryAfter` or a generic error — a rate-limited attempt consumes
the bounded attempt budget exactly like a generic transient failure. -/
theorem send_rate_limit_c8_amended (t t' : Nat → Except RequestError Unit)
    (hsame : ∀ n, isErrRes (t n) = isErrRes (t' n)) :
    (send_illust_retry t).2.2 = 0 ∧
      (send_illust_retry t).2.1 = (send_illust_retry t').2.1 := by
  refine ⟨rfl, ?_⟩
  simp only [send_illust_retry]
  exact sendLoopAux_count_congr t t' hsame 10 0

/-- Witness for C8 (amended): an always-rate-limited transport performs the
same number of attempts as an always-generic-error transport. -/
theorem send_rate_limit_c8_amended_witness :
    (send_illust_retry tRateLimitedAlways).2.2 = 0 ∧
      (send_illust_retry tRateLimitedAlways).2.1 = (send_illust_retry tAllFail).2.1 :=
  send_rate_limit_c8_amended tRateLimitedAlways tAllFail (fun _ => rfl)

/-! ## Media-group construction of `send_illust` (src/lib.rs lines 374-480) -/

/-- Rust's `str::parse::<u32>()`: an optional leading sign, then at least one
ASCII digit, with the value required to fit in 32 bits. -/
def parseU32Digits : List Char → Nat → Except Unit Nat
  | [], acc => .ok acc
  | c :: rest, acc =>
    if c.isDigit then
      let acc2 := acc * 10 + (c.toNat - 48)
      if acc2 < 2 ^ 32 then parseU32Digits rest acc2 else .error ()
    else .error ()

/-- Rust's `str::parse::<u32>()` on a whole string. -/
def parseU32 (s : String) : Except Unit Nat :=
  match s.data with
  | '+' :: rest => if rest.isEmpty then .error () else parseU32Digits rest 0
  | cs => if cs.isEmpty then .error () else parseU32Digits cs 0

/-- One element of the `images` vector built by `send_illust`
(`InputMediaPhoto`): the fitted bytes and whether the caption is attached
(the source attaches the caption only when `images.len() == 0` at push
time). -/
structure MediaItem where
  bytes : List Nat
  hasCaption : Bool
deriving DecidableEq

/-- The error cases `send_illust` can return before reaching the send loop:
a failed image download, a width/height field that does not parse, an image
decode failure inside `resize_image`, and a missing single-image URL. -/
inductive SendError where
  | download
  | fieldParse
  | decode
  | urlMissing
deriving DecidableEq

/-- Outcome of building the `images` vector in `send_illust`: the vector
handed to `send_media_group`, an error returned with `?`/`return Err`, a
panic from out-of-bounds `illust_images[image.page]` indexing, or
divergence of `resize_image`. -/
inductive BuildResult where
  | ok (media : List MediaItem)
  | err (e : SendError)
  | panicOob
  | diverge
deriving DecidableEq

/-- The `for image in manga` loop of `send_illust`: download the page, look
up its declared dimensions by indexing `illust_images` with the page number
(an out-of-bounds index panics), parse them, fit the image, push the
`InputMediaPhoto` (caption only on the first), and stop after the 10th push
(`if images.len() == 10 break`). `dl` models `download_image` (url, referer). -/
def mangaLoop (C : Codec) (dl : String → String → Except Unit (List Nat))
    (referer : String) (imgs : List IllustImages) :
    List Manga → List MediaItem → BuildResult
  | [], acc => .ok acc
  | e :: rest, acc =>
    match dl e.url referer with
    | .error _ => .err .download
    | .ok original =>
      if h : e.page < imgs.length then
        let entry := imgs.get ⟨e.page, h⟩
        match parseU32 entry.illust_image_width with
        | .error _ => .err .fieldParse
        | .ok w =>
          match parseU32 entry.illust_image_height with
          | .error _ => .err .fieldParse
          | .ok ht =>
            match resize_image C original w ht with
            | .decodeFailed => .err .decode
            | .diverge => .diverge
            | .ok bytes =>
              let acc2 := acc ++ [⟨bytes, acc.isEmpty⟩]
              if acc2.length = 10 then .ok acc2
              else mangaLoop C dl referer imgs rest acc2
      else .panicOob

/-- The single-image branch of `send_illust` (taken when the record is not
a manga): fail if `url` is absent, otherwise download, parse the record's
declared dimensions, fit, and push one captioned photo. -/
def buildSingle (C : Codec) (dl : String → String → Except Unit (List Nat))
    (illust : Illust) : BuildResult :=
  match illust.url with
  | none => .err .urlMissing
  | some u =>
    match dl u illust.meta.canonical with
    | .error _ => .err .download
    | .ok original =>
      match parseU32 illust.width with
      | .error _ => .err .fieldParse
      | .ok w =>
        match parseU32 illust.height with
        | .error _ => .err .fieldParse
        | .ok ht =>
          match resize_image C original w ht with
          | .decodeFailed => .err .decode
          | .diverge => .diverge
          | .ok bytes => .ok [⟨bytes, true⟩]

/-- The `images` vector that `send_illust` builds and hands to
`send_media_group`: the manga branch when both `manga_a` and
`illust_images` are present, otherwise the single-image branch. -/
def buildMedia (C : Codec) (dl : String → String → Except Unit (List Nat))
    (illust : Illust) : BuildResult :=
  match illust.manga_a, illust.illust_images with
  | some manga, some imgs => mangaLoop C dl illust.meta.canonical imgs manga []
  | _, _ => buildSingle C dl illust

theorem buildSingle_ok_length (C : Codec)
    (dl : String → String → Except Unit (List Nat)) (illust : Illust)
    (l : List MediaItem) (h : buildSingle C dl illust = .ok l) :
    l.length = 1 := by
  simp only [buildSingle] at h
  split at h
  · cases h
  · split at h
    · cases h
    · split at h
      · cases h
      · split at h
        · cases h
        · split at h
          · cases h
          · cases h
          · cases h
            rfl

theorem mangaLoop_ok_length (C : Codec)
    (dl : String → String → Except Unit (List Nat)) (referer : String)
    (imgs : List IllustImages) :
    ∀ (entries : List Manga) (acc l : List MediaItem),
      acc.length < 10 →
      mangaLoop C dl referer imgs entries acc = .ok l →
      l.length = min (acc.length + entries.length) 10 := by
  intro entries
  induction entries with
  | nil =>
    intro acc l hlen h
    simp only [mangaLoop] at h
    cases h
    simp
    omega
  | cons e rest ih =>
    intro acc l hlen h
    simp only [mangaLoop] at h
    split at h
    · cases h
    · split at h
      · split at h
        · cases h
        · split at h
          · cases h
          · split at h
            · cases h
            · cases h
            · rename_i bytes hresize
              split at h
              · rename_i hten
                cases h
                simp at hten ⊢
                omega
              · rename_i hten
                have hlt : (acc ++ [(⟨bytes, acc.isEmpty⟩ : MediaItem)]).length < 10 := by
                  simp at hten ⊢
                  omega
                have := ih _ l hlt h
                simp at this ⊢
                omega
      · cases h

/-- C9 (amended): the `images` vector handed to `send_media_group` never
exceeds 10 items, and for a manga record it has exactly `min pages 10` items
(pages beyond the 10th are dropped by the `break`, not queued) — so it can
be empty when the record's manga page list is empty; a non-manga record
always yields exactly one item. -/
theorem delivery_media_count_c9_amended (C : Codec)
    (dl : String → String → Except Unit (List Nat)) (illust : Illust)
    (l : List MediaItem) (h : buildMedia C dl illust = .ok l) :
    l.length ≤ 10 ∧
      (∀ manga imgs, illust.manga_a = some manga →
        illust.illust_images = some imgs → l.length = min manga.length 10) ∧
      ((illust.manga_a = none ∨ illust.illust_images = none) → l.length = 1) := by
  cases hm : illust.manga_a with
  | some manga =>
    cases hi : illust.illust_images with
    | some imgs =>
      rw [buildMedia, hm, hi] at h
      have hlen := mangaLoop_ok_length C dl illust.meta.canonical imgs manga [] l
        (by simp) h
      simp only [List.length_nil, Nat.zero_add] at hlen
      refine ⟨by omega, fun manga' imgs' hm' hi' => ?_, fun hc => ?_⟩
      · cases hm'
        exact hlen
      · rcases hc with hc | hc <;> cases hc
    | none =>
      rw [buildMedia, hm, hi] at h
      have h1 := buildSingle_ok_length C dl illust l h
      refine ⟨by omega, fun manga' imgs' hm' hi' => ?_, fun _ => h1⟩
      cases hi'
  | none =>
    have h' : buildSingle C dl illust = .ok l := by
      rw [buildMedia, hm] at h
      cases hi : illust.illust_images with
      | some imgs => rw [hi] at h; exact h
      | none => rw [hi] at h; exact h
    have h1 := buildSingle_ok_length C dl illust l h'
    refine ⟨by omega, fun manga' imgs' hm' hi' => ?_, fun _ => h1⟩
    cases hm'

/-- `download_image` mock that always succeeds with empty bytes. -/
def dlOk : String → String → Except Unit (List Nat) := fun _ _ => .ok []

/-- A concrete resolved single-image (non-manga) record. -/
def singleIllust : Illust :=
  { id := "87469406", title := "t", width := "2000", height := "3000",
    tags := ["tag"], illust_images := none, manga_a := none,
    rating_count := "0", rating_view := "0", bookmark_user_total := 0,
    url := some "https://i.pximg.net/img.png", url_s := none, url_ss := none,
    meta := { description := "",
              canonical := "https://www.pixiv.net/artworks/87469406" },
    author_details := { user_id := "2", user_name := "a", user_account := "a" },
    is_login_only := false }

/-- A concrete resolved manga record whose page list is empty. -/
def emptyMangaIllust : Illust :=
  { id := "87469407", title := "t", width := "2000", height := "3000",
    tags := [], illust_images := some [], manga_a := some [],
    rating_count := "0", rating_view := "0", bookmark_user_total := 0,
    url := some "https://i.pximg.net/img.png", url_s := none, url_ss := none,
    meta := { description := "",
              canonical := "https://www.pixiv.net/artworks/87469407" },
    author_details := { user_id := "2", user_name := "a", user_account := "a" },
    is_login_only := false }

/-- C9 counterexample: a manga record with zero pages produces an empty
`images` vector, which `send_illust` still hands to `send_media_group` — so
the delivery unit's media count is not always at least 1. -/
theorem delivery_media_count_c9_counterexample :
    buildMedia unitCodec dlOk emptyMangaIllust = .ok [] ∧
      ¬ 1 ≤ ([] : List MediaItem).length := by
  refine ⟨rfl, by decide⟩

/-- Witness for the amended C9: a concrete non-manga record yields exactly
one media item. -/
theorem delivery_media_count_c9_witness :
    ([(⟨[], true⟩ : MediaItem)] : List MediaItem).length = 1 :=
  (delivery_media_count_c9_amended unitCodec dlOk singleIllust
    [⟨[], true⟩] (by decide)).2.2 (Or.inl rfl)

/-- C10: fitting a manga page reads the page's declared dimensions by
indexing `illust_images` with the page number; whenever the loop reaches an
entry whose page number is out of range (after a successful download, with
any items already accumulated), `send_illust` panics on the indexing instead
of returning an error outcome, and therefore a record whose manga list
starts with such an entry makes `send_illust`'s media construction panic. -/
theorem manga_page_oob_c10 (C : Codec)
    (dl : String → String → Except Unit (List Nat)) (referer : String)
    (imgs : List IllustImages) (e : Manga) (rest : List Manga)
    (acc : List MediaItem) (b : List Nat)
    (hdl : dl e.url referer = .ok b) (hoob : imgs.length ≤ e.page) :
    mangaLoop C dl referer imgs (e :: rest) acc = .panicOob ∧
      ∀ illust : Illust, illust.manga_a = some (e :: rest) →
        illust.illust_images = some imgs → illust.meta.canonical = referer →
        buildMedia C dl illust = .panicOob := by
  have hloop : ∀ acc2 : List MediaItem,
      mangaLoop C dl referer imgs (e :: rest) acc2 = .panicOob := by
    intro acc2
    simp only [mangaLoop, hdl]
    rw [dif_neg (by omega)]
  refine ⟨hloop acc, fun illust hm hi hc => ?_⟩
  rw [buildMedia, hm, hi, hc]
  exact hloop []

/-- The out-of-range manga entry used by the C10 witness. -/
def oobPage : Manga :=
  { page := 5, url := "https://i.pximg.net/p5.png", url_small := "s" }

/-- Witness for C10 at the concrete out-of-range record. -/
theorem manga_page_oob_c10_witness :
    mangaLoop unitCodec dlOk "https://www.pixiv.net/artworks/87469408" []
        [oobPage] [] = .panicOob :=
  (manga_page_oob_c10 unitCodec dlOk "https://www.pixiv.net/artworks/87469408"
    [] oobPage [] [] [] rfl (by decide)).1

/-! ## PipelineCoordinator: the delivery-launch loop of `run`
(src/lib.rs lines 566-574) -/

/-- Whether a detail-resolution result is an error. -/
def isResolveErr : Except String Illust → Bool
  | .error _ => true
  | .ok _ => false

/-- The record carried by a successful detail-resolution result. -/
def okRecord : Except String Illust → Option Illust
  | .ok x => some x
  | .error _ => none

/-- The error message of a failed detail-resolution result. -/
def resolveErrMsg : Except String Illust → Option String
  | .error e => some e
  | .ok _ => none

/-- The loop `for illust in future::join_all(get_illust_tasks).await` of
`run`: for each resolution result in ranking order it spawns one delivery
task (`task::spawn(send_illust(.., illust??))`) for the resolved record, but
the `??` on a failed resolution propagates that error out of `run`, ending
the loop.  Returns the records for which delivery tasks were spawned and the
propagated error, if any. -/
def launchDeliveries : List (Except String Illust) → List Illust × Option String
  | [] => ([], none)
  | .error e :: _ => ([], some e)
  | .ok x :: rest =>
    let p := launchDeliveries rest
    (x :: p.1, p.2)

/-- C1 counterexample: with two ranked ids where only the first one's
resolution fails, `run` spawns no delivery task at all — the successfully
resolved second record is not delivered, so one resolver failure does abort
the sibling records' processing. -/
theorem coordinator_abort_c1_counterexample :
    List.countP isResolveErr
        [Except.error "resolve failed", Except.ok singleIllust] = 1 ∧
      Except.ok singleIllust ∈
        [Except.error "resolve failed", Except.ok singleIllust] ∧
      singleIllust ∉
        (launchDeliveries [Except.error "resolve failed",
          Except.ok singleIllust]).1 := by
  refine ⟨rfl, List.mem_cons_of_mem _ (List.mem_cons_self _ _), ?_⟩
  simp [launchDeliveries]

/-- C1 (amended): a detail-resolution failure aborts `run`'s launch loop:
delivery tasks are spawned exactly for the successfully resolved records
that precede the first failed resolution, and the first failure's error is
propagated out of `run` (already-spawned tasks are not cancelled, but no
further ones are spawned). -/
theorem coordinator_abort_c1_amended (results : List (Except String Illust)) :
    (launchDeliveries results).1 =
        (results.takeWhile (fun r => ! isResolveErr r)).filterMap okRecord ∧
      (launchDeliveries results).2 =
        (results.find? isResolveErr).bind resolveErrMsg := by
  induction results with
  | nil => simp [launchDeliveries]
  | cons r rest ih =>
    cases r with
    | error e =>
      simp [launchDeliveries, isResolveErr, resolveErrMsg, List.find?]
    | ok x =>
      simp [launchDeliveries, isResolveErr, okRecord, List.find?, ih]
